import Mathlib

/-!
# Shallow embedding of `Week7-2-TreeBillboardsApp.cpp`

This file embeds, as executable Lean definitions, the parts of the
TreeBillboards application (GAME3111_A2) that its specification talks about:

* the frame-resource ring and CPU/GPU fence pacing in
  `TreeBillboardsApp::Update` / `TreeBillboardsApp::Draw`;
* the `NumFramesDirty` counter discipline of `UpdateObjectCBs` /
  `UpdateMaterialCBs`;
* the fixed layer order of `Draw`;
* the UV-scroll wrap of `AnimateMaterials`;
* the disturbance scheduling of `UpdateWaves`;
* the `ObjCBIndex` assignment of `BuildRenderItems` / `BuildMazePart` and the
  frame-resource capacities of `BuildFrameResources`;
* the camera-orientation update of `OnMouseMove`;
* the index-buffer generation loop of `BuildWavesGeometry`.

C++ `float` quantities are modelled with exact rationals, machine integers
with `Nat`/`Int` (with explicit wrapping where the C++ type wraps).
-/

/-- `const int gNumFrameResources = 3;` (top of the source file). -/
def gNumFrameResources : Nat := 3

/-! ## Frame pacing (`Update` lines 254-266, `Draw` lines 331-341)

`Update` advances `mCurrFrameResourceIndex = (mCurrFrameResourceIndex + 1) %
gNumFrameResources` and then blocks on the fence if
`mCurrFrameResource->Fence != 0 && mFence->GetCompletedValue() <
mCurrFrameResource->Fence`.  `Draw` ends with
`mCurrFrameResource->Fence = ++mCurrentFence; mCommandQueue->Signal(...)`.

We model this as a labelled transition system: the GPU asynchronously moves
its completed-fence counter up to (never beyond) the last signalled value,
while the single CPU thread alternates an `update` phase (advance + wait +
write constants) and a `draw` phase (record + submit + stamp + signal).
`cpuWriting = true` marks the span during which the CPU writes into the
current frame-resource slot (the tail of `Update` and the recording part of
`Draw`, before the stamp). -/

/-- The fence-wait guard of `Update`:
`mCurrFrameResource->Fence != 0 && mFence->GetCompletedValue() < mCurrFrameResource->Fence`.
`Update` blocks exactly when this is `true`. -/
def needsWait (fence completed : Nat) : Bool :=
  fence != 0 && completed < fence

/-- State of the frame-pacing machinery.  `fences i` is the `Fence` member of
frame resource `i` (only indices `0,1,2` are ever used); `completed` is the
GPU's `mFence->GetCompletedValue()`; `currentFence` is `mCurrentFence`. -/
structure SyncState where
  currFrameResourceIndex : Nat
  currentFence : Nat
  fences : Nat → Nat
  completed : Nat
  cpuWriting : Bool

/-- Startup state: `mCurrFrameResourceIndex = 0`, `mCurrentFence = 0` (from
`D3DApp`), every `FrameResource::Fence = 0`, nothing signalled or completed. -/
def initSyncState : SyncState :=
  { currFrameResourceIndex := 0
    currentFence := 0
    fences := fun _ => 0
    completed := 0
    cpuWriting := false }

/-- One transition of the frame-pacing system.

* `gpu`: the GPU retires submitted work; its completed counter grows
  monotonically but never beyond the last value signalled
  (`mCommandQueue->Signal(mFence.Get(), mCurrentFence)`).
* `update`: the ring-advance and fence wait of `Update` (lines 254-266).  The
  CPU may proceed into the writing span only when the wait guard is false,
  i.e. the wait primitive has returned.
* `draw`: the end of `Draw` (lines 339-341): stamp
  `mCurrFrameResource->Fence = ++mCurrentFence` and signal, ending the
  writing span for this slot. -/
inductive SyncStep : SyncState → SyncState → Prop where
  | gpu (s : SyncState) (c : Nat) (h1 : s.completed ≤ c) (h2 : c ≤ s.currentFence) :
      SyncStep s { s with completed := c }
  | update (s : SyncState) (hphase : s.cpuWriting = false)
      (hwait : needsWait
          (s.fences ((s.currFrameResourceIndex + 1) % gNumFrameResources))
          s.completed = false) :
      SyncStep s
        { s with
          currFrameResourceIndex := (s.currFrameResourceIndex + 1) % gNumFrameResources
          cpuWriting := true }
  | draw (s : SyncState) (hphase : s.cpuWriting = true) :
      SyncStep s
        { s with
          currentFence := s.currentFence + 1
          fences := fun j =>
            if j = s.currFrameResourceIndex then s.currentFence + 1 else s.fences j
          cpuWriting := false }

/-- States reachable from startup by the Update/Draw/GPU step relation. -/
inductive SyncReachable : SyncState → Prop where
  | base : SyncReachable initSyncState
  | step {s t : SyncState} : SyncReachable s → SyncStep s t → SyncReachable t

theorem needsWait_eq_false_iff (fence completed : Nat) :
    needsWait fence completed = false ↔ (fence = 0 ∨ fence ≤ completed) := by
  simp only [needsWait, Bool.and_eq_false_iff, bne_eq_false_iff_eq,
    decide_eq_false_iff_not, Nat.not_lt]

/-! ## Deterministic 5-frame run (`Update` line 254-256, `Draw` lines 331-341)

For the fence values stamped and the ring index used, the fence *wait* in
`Update` is irrelevant: the wait (lines 259-266) modifies none of
`mCurrFrameResourceIndex`, `mCurrentFence`, or the per-slot `Fence` members.
So the per-frame evolution of those three variables is the deterministic
function below. -/

/-- The three pacing variables evolved by one `Update`+`Draw` frame.
`frFences` lists the `Fence` member of the three frame resources. -/
structure FrameSim where
  mCurrFrameResourceIndex : Nat
  mCurrentFence : Nat
  frFences : List Nat
deriving DecidableEq, Repr

/-- Startup values: index 0, fence counter 0, all three slot fences 0. -/
def initFrameSim : FrameSim := ⟨0, 0, [0, 0, 0]⟩

/-- `mCurrFrameResourceIndex = (mCurrFrameResourceIndex + 1) % gNumFrameResources;`
(start of `Update`). -/
def updateAdvance (s : FrameSim) : FrameSim :=
  { s with mCurrFrameResourceIndex := (s.mCurrFrameResourceIndex + 1) % gNumFrameResources }

/-- `mCurrFrameResource->Fence = ++mCurrentFence;` (end of `Draw`). -/
def drawStamp (s : FrameSim) : FrameSim :=
  { s with
    mCurrentFence := s.mCurrentFence + 1
    frFences := s.frFences.set s.mCurrFrameResourceIndex (s.mCurrentFence + 1) }

/-- Run `n` frames of `Update` followed by `Draw`, recording for each frame
the ring index written that frame and the fence value stamped into the
current frame resource at the end of its `Draw`. -/
def runFrames : Nat → FrameSim → List (Nat × Nat)
  | 0, _ => []
  | Nat.succ n, s =>
      let s1 := updateAdvance s
      let s2 := drawStamp s1
      (s1.mCurrFrameResourceIndex, s2.mCurrentFence) :: runFrames n s2

/-- C1: in every reachable state of the Update/Draw step relation, while the
CPU is writing a frame-resource slot, the wait guard at that slot is false:
the slot's recorded fence value is zero (no commands ever recorded from it)
or the GPU's completed counter has reached it — the CPU never writes a slot
whose recorded commands the GPU has not completed. -/
theorem syncReachable_cpu_never_writes_inflight_slot
    (s : SyncState) (h : SyncReachable s) (hw : s.cpuWriting = true) :
    needsWait (s.fences s.currFrameResourceIndex) s.completed = false := by
  induction h with
  | base => simp [initSyncState] at hw
  | step hr hstep ih =>
      cases hstep with
      | gpu c h1 h2 =>
          have hprev := ih hw
          rw [needsWait_eq_false_iff] at hprev ⊢
          rcases hprev with h0 | hle
          · exact Or.inl h0
          · exact Or.inr (le_trans hle h1)
      | update hphase hwait => exact hwait
      | draw hphase => simp at hw

/-- Witness for C1: from startup, one `update` step puts the CPU in the
writing phase at slot 1, and the theorem applies there. -/
theorem syncReachable_cpu_never_writes_inflight_slot_witness :
    needsWait
      (({ initSyncState with
          currFrameResourceIndex :=
            (initSyncState.currFrameResourceIndex + 1) % gNumFrameResources
          cpuWriting := true } : SyncState).fences
        ({ initSyncState with
          currFrameResourceIndex :=
            (initSyncState.currFrameResourceIndex + 1) % gNumFrameResources
          cpuWriting := true } : SyncState).currFrameResourceIndex)
      ({ initSyncState with
          currFrameResourceIndex :=
            (initSyncState.currFrameResourceIndex + 1) % gNumFrameResources
          cpuWriting := true } : SyncState).completed = false :=
  syncReachable_cpu_never_writes_inflight_slot _
    (SyncReachable.step SyncReachable.base
      (SyncStep.update initSyncState rfl (by decide)))
    rfl

/-- C2 (counterexample): starting from the initial state, the ring index does
NOT take the values 0,1,2,0,1 over the first 5 frames: `Update` advances the
index before the slot is used, so the first frame already writes slot 1. -/
theorem runFrames_ring_index_not_starting_at_zero :
    ¬ ((runFrames 5 initFrameSim).map Prod.fst = [0, 1, 2, 0, 1]) := by decide

/-- C2 (amended): over 5 consecutive `Update`+`Draw` frames from the initial
state, the fence value stamped into the current frame resource is 1,2,3,4,5
(increasing by exactly 1 each frame), and the ring index takes the values
1,2,0,1,2 (the index is advanced at the start of `Update`, before use). -/
theorem runFrames_five_frames_fence_and_ring :
    (runFrames 5 initFrameSim).map Prod.snd = [1, 2, 3, 4, 5]
    ∧ (runFrames 5 initFrameSim).map Prod.fst = [1, 2, 0, 1, 2] := by decide

/-! ## Data model: `RenderItem`, `Material`, `RenderLayer`

The `RenderItem` struct at the top of the source file is embedded with the
fields the verified claims refer to: `NumFramesDirty` (a C++ `int`, so `Int`),
`ObjCBIndex` (a `UINT`, default `-1` which wraps to `4294967295`), and the
material / geometry the item is bound to (by store key, mirroring the raw
`Material*` / `MeshGeometry*` back-references into name-keyed stores).  The
geometric payload fields (`World`, `TexTransform`, `PrimitiveType`,
`IndexCount`, `StartIndexLocation`, `BaseVertexLocation`) are carried by no
claim under verification and are elided. -/

/-- `struct RenderItem` (source top), claim-relevant fields. -/
structure RenderItem where
  numFramesDirty : Int := (gNumFrameResources : Int)
  objCBIndex : Nat := 4294967295
  matName : String
  geoName : String
deriving DecidableEq, Repr

/-- `enum class RenderLayer : int { Opaque = 0, Transparent, AlphaTested,
AlphaTestedTreeSprites, Count };` (`Count` is only an array bound). -/
inductive RenderLayer where
  | Opaque
  | Transparent
  | AlphaTested
  | AlphaTestedTreeSprites
deriving DecidableEq, Repr

/-- `struct Material` (from `d3dUtil.h`, as used by this source file):
name, constant-buffer index, texture-array (SRV heap) slot, albedo, Fresnel
term, roughness, the 4×4 `MatTransform` used for UV scrolling, and the
`NumFramesDirty` counter. -/
structure Material where
  name : String
  matCBIndex : Nat
  diffuseSrvHeapIndex : Nat
  diffuseAlbedo : ℚ × ℚ × ℚ × ℚ
  fresnelR0 : ℚ × ℚ × ℚ
  roughness : ℚ
  matTransform : Fin 4 → Fin 4 → ℚ
  numFramesDirty : Int

/-! ## Dirty-counter discipline (`UpdateObjectCBs` lines 465-487,
`UpdateMaterialCBs` lines 489-513)

Both loops run `if (NumFramesDirty > 0) { copy constants; NumFramesDirty--; }`
per record.  The constant-buffer payload write (`CopyData` of the transposed
transforms / material constants) is elided: no claim refers to the copied
values, only to the counter. -/

/-- Loop body of `UpdateObjectCBs` for one render item. -/
def updateObjectCBsItem (e : RenderItem) : RenderItem :=
  if e.numFramesDirty > 0 then { e with numFramesDirty := e.numFramesDirty - 1 } else e

/-- `UpdateObjectCBs`: the loop over `mAllRitems`. -/
def updateObjectCBs (items : List RenderItem) : List RenderItem :=
  items.map updateObjectCBsItem

/-- Loop body of `UpdateMaterialCBs` for one material. -/
def updateMaterialCBsMat (mat : Material) : Material :=
  if mat.numFramesDirty > 0 then { mat with numFramesDirty := mat.numFramesDirty - 1 } else mat

/-- `UpdateMaterialCBs`: the loop over the name-keyed material store. -/
def updateMaterialCBs (mats : String → Material) : String → Material :=
  fun n => updateMaterialCBsMat (mats n)

/-- A record's dirty-counter history: it is either modified (the source sets
`NumFramesDirty = gNumFrameResources` on modification, e.g. at the end of
`AnimateMaterials`) or subjected to one Update cycle. -/
inductive DirtyEvent where
  | modifyRecord
  | updateCycle
deriving DecidableEq, Repr

/-- Effect of one event on a dirty counter: modification resets it to
`gNumFrameResources = 3`; an Update cycle decrements it only when positive. -/
def applyDirtyEvent (c : Int) : DirtyEvent → Int
  | .modifyRecord => (gNumFrameResources : Int)
  | .updateCycle => if c > 0 then c - 1 else c

theorem foldl_applyDirtyEvent_nonneg (evs : List DirtyEvent) (c : Int) (h : 0 ≤ c) :
    0 ≤ evs.foldl applyDirtyEvent c := by
  induction evs generalizing c with
  | nil => exact h
  | cons ev evs ih =>
      refine ih _ ?_
      cases ev <;> simp only [applyDirtyEvent]
      · exact Int.ofNat_nonneg _
      · split <;> omega

/-- C3: dirty counters never go negative and expire in exactly 3 cycles.
The per-record step of `UpdateObjectCBs` / `UpdateMaterialCBs` is exactly
`applyDirtyEvent · .updateCycle` (decrement only when positive); a counter
that starts non-negative stays non-negative under any sequence of
modifications and Update cycles; and a modification (reset to 3) followed by
exactly 3 Update cycles, with no further modification, leaves the counter at
exactly 0 — not yet 0 after only 2. -/
theorem numFramesDirty_discipline :
    (∀ e : RenderItem,
        (updateObjectCBsItem e).numFramesDirty = applyDirtyEvent e.numFramesDirty .updateCycle)
    ∧ (∀ m : Material,
        (updateMaterialCBsMat m).numFramesDirty = applyDirtyEvent m.numFramesDirty .updateCycle)
    ∧ (∀ e : RenderItem, e.numFramesDirty > 0 →
        (updateObjectCBsItem e).numFramesDirty = e.numFramesDirty - 1)
    ∧ (∀ e : RenderItem, ¬ e.numFramesDirty > 0 →
        (updateObjectCBsItem e).numFramesDirty = e.numFramesDirty)
    ∧ (∀ (c : Int) (evs : List DirtyEvent), 0 ≤ c → 0 ≤ evs.foldl applyDirtyEvent c)
    ∧ (∀ c : Int,
        [DirtyEvent.modifyRecord, .updateCycle, .updateCycle, .updateCycle].foldl
          applyDirtyEvent c = 0)
    ∧ (∀ c : Int,
        [DirtyEvent.modifyRecord, .updateCycle, .updateCycle].foldl applyDirtyEvent c = 1) :=
  ⟨fun e => by by_cases h : e.numFramesDirty > 0 <;>
      simp [updateObjectCBsItem, applyDirtyEvent, h],
   fun m => by by_cases h : m.numFramesDirty > 0 <;>
      simp [updateMaterialCBsMat, applyDirtyEvent, h],
   fun e h => by simp [updateObjectCBsItem, h],
   fun e h => by simp [updateObjectCBsItem, h],
   fun c evs h => foldl_applyDirtyEvent_nonneg evs c h,
   fun c => by simp [applyDirtyEvent, gNumFrameResources],
   fun c => by simp [applyDirtyEvent, gNumFrameResources]⟩

/-- Witness for C3: a freshly modified item (counter 3) is decremented to 2 by
one Update cycle, and a counter 0 never goes negative under a sample event
sequence. -/
theorem numFramesDirty_discipline_witness :
    (updateObjectCBsItem { numFramesDirty := 3, matName := "grass", geoName := "wallGeo" }).numFramesDirty
      = (3 : Int) - 1
    ∧ 0 ≤ [DirtyEvent.updateCycle, .updateCycle, .modifyRecord,
        .updateCycle].foldl applyDirtyEvent 0 :=
  ⟨numFramesDirty_discipline.2.2.1 _ (by decide),
   numFramesDirty_discipline.2.2.2.2.1 0 _ (by decide)⟩

/-! ## Draw layer order (`Draw` lines 309-318)

`Draw` resets the command list with the `"opaque"` pipeline state, draws the
`Opaque` layer, then successively sets the `"alphaTested"`,
`"treeSprites"`, and `"transparent"` pipeline states, drawing the
`AlphaTested`, `AlphaTestedTreeSprites`, and `Transparent` layers in that
fixed order.  We record the command stream at that granularity. -/

/-- A recorded GPU command relevant to layer ordering.
`setPipelineState layer` models `SetPipelineState(mPSOs[...])` (the initial
`Reset(cmdListAlloc, mPSOs["opaque"])` binds the opaque pipeline);
`drawItem layer item` models the draw issued by `DrawRenderItems` for `item`
while `layer`'s pipeline state is bound (per-item vertex/index buffer and
descriptor binds elided). -/
inductive DrawCmd where
  | setPipelineState (layer : RenderLayer)
  | drawItem (layer : RenderLayer) (item : RenderItem)
deriving DecidableEq, Repr

/-- `DrawRenderItems(cmdList, ritems)`: one draw per item, in list order,
under the currently bound layer pipeline state. -/
def drawRenderItemsCmds (layer : RenderLayer) (ritems : List RenderItem) : List DrawCmd :=
  ritems.map (DrawCmd.drawItem layer)

/-- Commands of `Draw` up to (excluding) the transparent pass. -/
def frontCmds (layers : RenderLayer → List RenderItem) : List DrawCmd :=
  (DrawCmd.setPipelineState .Opaque :: drawRenderItemsCmds .Opaque (layers .Opaque))
  ++ (DrawCmd.setPipelineState .AlphaTested
      :: drawRenderItemsCmds .AlphaTested (layers .AlphaTested))
  ++ (DrawCmd.setPipelineState .AlphaTestedTreeSprites
      :: drawRenderItemsCmds .AlphaTestedTreeSprites (layers .AlphaTestedTreeSprites))

/-- The transparent pass at the end of `Draw`. -/
def backCmds (layers : RenderLayer → List RenderItem) : List DrawCmd :=
  DrawCmd.setPipelineState .Transparent
    :: drawRenderItemsCmds .Transparent (layers .Transparent)

/-- The per-layer command sequence of `Draw` (lines 309-318), as a function of
the layer lists `mRitemLayer` (so of the insertion order of the items). -/
def drawLayerCmds (layers : RenderLayer → List RenderItem) : List DrawCmd :=
  frontCmds layers ++ backCmds layers

/-- The layer of a `setPipelineState` command. -/
def psoLayer : DrawCmd → Option RenderLayer
  | .setPipelineState l => some l
  | .drawItem _ _ => none

theorem filterMap_psoLayer_draws (L : RenderLayer) (l : List RenderItem) :
    List.filterMap (psoLayer ∘ DrawCmd.drawItem L) l = [] := by
  induction l with
  | nil => rfl
  | cons a l ih => simp [psoLayer, ih, Function.comp]

theorem frontCmds_no_transparent_draw (layers : RenderLayer → List RenderItem) :
    ∀ c ∈ frontCmds layers, ∀ y, c ≠ DrawCmd.drawItem RenderLayer.Transparent y := by
  intro c hc y
  simp only [frontCmds, drawRenderItemsCmds, List.mem_append, List.mem_cons,
    List.mem_map] at hc
  rcases hc with ((rfl | ⟨x, _, rfl⟩) | (rfl | ⟨x, _, rfl⟩)) | (rfl | ⟨x, _, rfl⟩) <;> simp

theorem backCmds_only_transparent (layers : RenderLayer → List RenderItem) :
    ∀ c ∈ backCmds layers, ∀ L x, c = DrawCmd.drawItem L x → L = RenderLayer.Transparent := by
  intro c hc L x hcx
  simp only [backCmds, drawRenderItemsCmds, List.mem_cons, List.mem_map] at hc
  rcases hc with rfl | ⟨z, _, rfl⟩
  · exact absurd hcx (by simp)
  · cases hcx; rfl

/-- C4: for every assignment of render items to the four layer lists
(i.e. independently of insertion order), `Draw` records the pipeline states
in the fixed order opaque → alpha-tested → tree-sprite billboards →
transparent, and every draw issued under the transparent pipeline comes
after every draw issued under any other pipeline. -/
theorem drawLayerCmds_fixed_order (layers : RenderLayer → List RenderItem)
    (p q : Nat) (hp : p < (drawLayerCmds layers).length)
    (hq : q < (drawLayerCmds layers).length)
    (L : RenderLayer) (x y : RenderItem)
    (hpc : (drawLayerCmds layers)[p] = DrawCmd.drawItem L x)
    (hL : L ≠ RenderLayer.Transparent)
    (hqc : (drawLayerCmds layers)[q] = DrawCmd.drawItem RenderLayer.Transparent y) :
    ((drawLayerCmds layers).filterMap psoLayer
        = [RenderLayer.Opaque, RenderLayer.AlphaTested,
           RenderLayer.AlphaTestedTreeSprites, RenderLayer.Transparent])
    ∧ p < q := by
  constructor
  · simp [drawLayerCmds, frontCmds, backCmds, drawRenderItemsCmds,
      List.filterMap_append, List.filterMap_map, psoLayer,
      filterMap_psoLayer_draws]
  · have hfq : (frontCmds layers).length ≤ q := by
      by_contra hlt
      push_neg at hlt
      have : (drawLayerCmds layers)[q] = (frontCmds layers)[q] := by
        simp only [drawLayerCmds]
        exact List.getElem_append_left hlt
      have hmem : (frontCmds layers)[q] ∈ frontCmds layers := List.getElem_mem _
      exact frontCmds_no_transparent_draw layers _ hmem y (by rw [← this, hqc])
    have hfp : p < (frontCmds layers).length := by
      by_contra hge
      push_neg at hge
      have hplen : p - (frontCmds layers).length < (backCmds layers).length := by
        have := hp
        simp only [drawLayerCmds, List.length_append] at this
        omega
      have : (drawLayerCmds layers)[p] = (backCmds layers)[p - (frontCmds layers).length] := by
        simp only [drawLayerCmds]
        exact List.getElem_append_right hge
      have hmem : (backCmds layers)[p - (frontCmds layers).length] ∈ backCmds layers :=
        List.getElem_mem _
      exact hL (backCmds_only_transparent layers _ hmem L x (by rw [← this, hpc]))
    omega

/-- Witness for C4: a two-item scene (one opaque item inserted first, one
transparent item), draw positions 1 (opaque draw) and 5 (transparent draw). -/
theorem drawLayerCmds_fixed_order_witness :
    ((drawLayerCmds (fun l =>
        match l with
        | .Opaque => [{ matName := "grass", geoName := "landGeo" }]
        | .Transparent => [{ matName := "water", geoName := "waterGeo" }]
        | _ => [])).filterMap psoLayer
      = [RenderLayer.Opaque, RenderLayer.AlphaTested,
         RenderLayer.AlphaTestedTreeSprites, RenderLayer.Transparent])
    ∧ (1 : Nat) < 5 :=
  drawLayerCmds_fixed_order
    (fun l =>
      match l with
      | .Opaque => [{ matName := "grass", geoName := "landGeo" }]
      | .Transparent => [{ matName := "water", geoName := "waterGeo" }]
      | _ => [])
    1 5 (by decide) (by decide) RenderLayer.Opaque
    { matName := "grass", geoName := "landGeo" }
    { matName := "water", geoName := "waterGeo" }
    (by decide) (by decide) (by decide)

/-! ## UV scroll wrap (`AnimateMaterials` lines 441-463)

`AnimateMaterials` scrolls the water material's texture transform:
`tu += 0.1f*dt; tv += 0.02f*dt; if(tu >= 1.0f) tu -= 1.0f; if(tv >= 1.0f)
tv -= 1.0f;` then stores `tu`,`tv` back into `MatTransform(3,0)`,
`MatTransform(3,1)` and sets `NumFramesDirty = gNumFrameResources`.
Floats are modelled by exact rationals. -/

/-- One `offset += delta; if (offset >= 1.0f) offset -= 1.0f;` step. -/
def scrollStep (offset delta : ℚ) : ℚ :=
  let o := offset + delta
  if o ≥ 1 then o - 1 else o

/-- Repeated scroll steps over a sequence of per-step increments. -/
def scrollRun (offset : ℚ) (deltas : List ℚ) : ℚ :=
  deltas.foldl scrollStep offset

theorem scrollStep_eq_fract (o d : ℚ) (ho0 : 0 ≤ o) (ho1 : o < 1)
    (hd0 : 0 ≤ d) (hd1 : d < 1) :
    scrollStep o d = Int.fract (o + d) := by
  simp only [scrollStep]
  split
  case isTrue h =>
    have hb0 : (0:ℚ) ≤ o + d - 1 := by linarith
    have hb1 : o + d - 1 < 1 := by linarith
    have hself : Int.fract (o + d - 1) = o + d - 1 := Int.fract_eq_self.2 ⟨hb0, hb1⟩
    have hsub : Int.fract (o + d - ((1 : ℤ) : ℚ)) = Int.fract (o + d) :=
      Int.fract_sub_int (o + d) 1
    have : Int.fract (o + d - 1) = Int.fract (o + d) := by
      have hcast : ((1 : ℤ) : ℚ) = 1 := by norm_num
      rw [hcast] at hsub
      exact hsub
    linarith [this, hself]
  case isFalse h =>
    push_neg at h
    exact (Int.fract_eq_self.2 ⟨by linarith, h⟩).symm

theorem scrollRun_fract (offset : ℚ) (deltas : List ℚ)
    (h0 : 0 ≤ offset) (h1 : offset < 1)
    (hd : ∀ d ∈ deltas, 0 ≤ d ∧ d < 1) :
    scrollRun offset deltas = Int.fract (offset + deltas.sum)
    ∧ 0 ≤ scrollRun offset deltas ∧ scrollRun offset deltas < 1 := by
  induction deltas generalizing offset with
  | nil =>
      refine ⟨?_, h0, h1⟩
      simp [scrollRun, Int.fract_eq_self.2 ⟨h0, h1⟩]
  | cons d ds ih =>
      obtain ⟨hd0, hd1⟩ := hd d (by simp)
      have hstep := scrollStep_eq_fract offset d h0 h1 hd0 hd1
      have hs0 : 0 ≤ scrollStep offset d := hstep ▸ Int.fract_nonneg _
      have hs1 : scrollStep offset d < 1 := hstep ▸ Int.fract_lt_one _
      have ihx := ih (scrollStep offset d) hs0 hs1 (fun x hx => hd x (by simp [hx]))
      have hrun : scrollRun offset (d :: ds) = scrollRun (scrollStep offset d) ds := rfl
      refine ⟨?_, hrun ▸ ihx.2.1, hrun ▸ ihx.2.2⟩
      rw [hrun, ihx.1, hstep]
      have hfr : Int.fract (offset + d) = offset + d - ⌊offset + d⌋ := rfl
      have hx : Int.fract (offset + d) + ds.sum
          = offset + d + ds.sum - (⌊offset + d⌋ : ℚ) := by
        rw [hfr]; ring
      rw [hx, Int.fract_sub_int]
      rw [List.sum_cons, ← add_assoc]

theorem sum_map_rate (rate : ℚ) (dts : List ℚ) :
    (dts.map (fun dt => rate * dt)).sum = rate * dts.sum := by
  induction dts with
  | nil => simp
  | cons d ds ih => simp [ih]; ring

/-- C5: for every initial offset in `[0,1)` and every sequence of
non-negative time steps with `rate*dt < 1` at each step, the repeated
add-then-subtract-if-≥1 update computes exactly
`(initial + rate * T) mod 1.0` (the fractional part), where `T` is the total
elapsed time, and the offset lies in `[0,1)` after every step (every prefix
of the sequence).  This is the exact-arithmetic content of the
floating-point claim. -/
theorem animateScrollWrap (offset rate : ℚ) (dts : List ℚ)
    (h0 : 0 ≤ offset) (h1 : offset < 1) (hrate : 0 ≤ rate)
    (hd : ∀ dt ∈ dts, 0 ≤ dt ∧ rate * dt < 1) :
    scrollRun offset (dts.map (fun dt => rate * dt))
        = Int.fract (offset + rate * dts.sum)
    ∧ ∀ k : Nat,
        0 ≤ scrollRun offset ((dts.take k).map (fun dt => rate * dt))
        ∧ scrollRun offset ((dts.take k).map (fun dt => rate * dt)) < 1 := by
  have hds : ∀ d ∈ dts.map (fun dt => rate * dt), 0 ≤ d ∧ d < 1 := by
    intro d hd2
    simp only [List.mem_map] at hd2
    obtain ⟨dt, hdt, rfl⟩ := hd2
    exact ⟨mul_nonneg hrate (hd dt hdt).1, (hd dt hdt).2⟩
  constructor
  · have main := scrollRun_fract offset _ h0 h1 hds
    rw [main.1, sum_map_rate]
  · intro k
    have hsub : ∀ d ∈ (dts.take k).map (fun dt => rate * dt), 0 ≤ d ∧ d < 1 := by
      intro d hd2
      simp only [List.mem_map] at hd2
      obtain ⟨dt, hdt, rfl⟩ := hd2
      have hmem : dt ∈ dts := List.take_subset k dts hdt
      exact ⟨mul_nonneg hrate (hd dt hmem).1, (hd dt hmem).2⟩
    have main := scrollRun_fract offset _ h0 h1 hsub
    exact ⟨main.2.1, main.2.2⟩

/-- Witness for C5: offset `1/2`, rate `1/10`, two steps of `dt = 5` (so each
`rate*dt = 1/2 < 1`); the run wraps once and lands on
`Int.fract (1/2 + 1/10 * 10) = 1/2`. -/
theorem animateScrollWrap_witness :
    scrollRun (1/2) (([5, 5] : List ℚ).map (fun dt => (1/10) * dt))
      = Int.fract ((1/2 : ℚ) + (1/10) * ([5, 5] : List ℚ).sum) :=
  (animateScrollWrap (1/2) (1/10) [5, 5] (by norm_num) (by norm_num) (by norm_num)
    (by intro dt hdt; simp at hdt; subst hdt; norm_num)).1

/-! ## `AnimateMaterials` as a store transformer (lines 441-463, for C9) -/

/-- `AnimateMaterials`: reads `mMaterials["water"]`, scrolls
`MatTransform(3,0)` by `0.1*dt` and `MatTransform(3,1)` by `0.02*dt` with the
subtract-if-≥1 wrap, and sets that material's `NumFramesDirty` to
`gNumFrameResources`.  Every other entry of the store is untouched. -/
def animateMaterials (dt : ℚ) (mats : String → Material) : String → Material :=
  fun n =>
    if n = "water" then
      let waterMat := mats "water"
      let tu := scrollStep (waterMat.matTransform 3 0) ((1/10) * dt)
      let tv := scrollStep (waterMat.matTransform 3 1) ((1/50) * dt)
      { waterMat with
        matTransform := fun i j =>
          if i = 3 ∧ j = 0 then tu
          else if i = 3 ∧ j = 1 then tv
          else waterMat.matTransform i j
        numFramesDirty := (gNumFrameResources : Int) }
    else mats n

/-- The application state `AnimateMaterials` can reach: the name-keyed
material store and the render-item list (`mMaterials`, `mAllRitems`). -/
structure AppState where
  mMaterials : String → Material
  mAllRitems : List RenderItem

/-- `AnimateMaterials` at application level: it only rewrites the material
store. -/
def animateMaterialsApp (dt : ℚ) (s : AppState) : AppState :=
  { s with mMaterials := animateMaterials dt s.mMaterials }

/-- C9: each `AnimateMaterials` run mutates only the material named
`"water"`, and within it only `MatTransform(3,0)`, `MatTransform(3,1)` and
`NumFramesDirty`; every other material of the store, every other field of
the water material, and every render item are left unchanged. -/
theorem animateMaterials_frame_effect (dt : ℚ) (s : AppState) :
    (animateMaterialsApp dt s).mAllRitems = s.mAllRitems
    ∧ (∀ n, n ≠ "water" → (animateMaterialsApp dt s).mMaterials n = s.mMaterials n)
    ∧ ((animateMaterialsApp dt s).mMaterials "water").name = (s.mMaterials "water").name
    ∧ ((animateMaterialsApp dt s).mMaterials "water").matCBIndex
        = (s.mMaterials "water").matCBIndex
    ∧ ((animateMaterialsApp dt s).mMaterials "water").diffuseSrvHeapIndex
        = (s.mMaterials "water").diffuseSrvHeapIndex
    ∧ ((animateMaterialsApp dt s).mMaterials "water").diffuseAlbedo
        = (s.mMaterials "water").diffuseAlbedo
    ∧ ((animateMaterialsApp dt s).mMaterials "water").fresnelR0
        = (s.mMaterials "water").fresnelR0
    ∧ ((animateMaterialsApp dt s).mMaterials "water").roughness
        = (s.mMaterials "water").roughness
    ∧ (∀ i j : Fin 4, ¬(i = 3 ∧ j = 0) → ¬(i = 3 ∧ j = 1) →
        ((animateMaterialsApp dt s).mMaterials "water").matTransform i j
          = (s.mMaterials "water").matTransform i j) := by
  refine ⟨rfl, ?_, ?_, ?_, ?_, ?_, ?_, ?_, ?_⟩
  · intro n hn
    simp [animateMaterialsApp, animateMaterials, hn]
  · simp [animateMaterialsApp, animateMaterials]
  · simp [animateMaterialsApp, animateMaterials]
  · simp [animateMaterialsApp, animateMaterials]
  · simp [animateMaterialsApp, animateMaterials]
  · simp [animateMaterialsApp, animateMaterials]
  · simp [animateMaterialsApp, animateMaterials]
  · intro i j h1 h2
    simp [animateMaterialsApp, animateMaterials, h1, h2]

/-- A concrete store/state for the C9 witness. -/
def sampleMaterial : Material :=
  { name := "water"
    matCBIndex := 0
    diffuseSrvHeapIndex := 0
    diffuseAlbedo := (1, 1, 1, 1)
    fresnelR0 := (1/10, 1/10, 1/10)
    roughness := 0
    matTransform := fun _ _ => 0
    numFramesDirty := (gNumFrameResources : Int) }

/-- A concrete application state for the C9 witness. -/
def sampleAppState : AppState :=
  { mMaterials := fun _ => sampleMaterial
    mAllRitems := [{ matName := "grass", geoName := "landGeo" }] }

/-- Witness for C9: on a concrete state, the render items are unchanged, the
`"grass"` entry is unchanged, and the water material's `MatTransform(0,0)` is
unchanged. -/
theorem animateMaterials_frame_effect_witness :
    (animateMaterialsApp 1 sampleAppState).mAllRitems = sampleAppState.mAllRitems
    ∧ (animateMaterialsApp 1 sampleAppState).mMaterials "grass"
        = sampleAppState.mMaterials "grass"
    ∧ ((animateMaterialsApp 1 sampleAppState).mMaterials "water").matTransform 0 0
        = (sampleAppState.mMaterials "water").matTransform 0 0 :=
  ⟨(animateMaterials_frame_effect 1 sampleAppState).1,
   (animateMaterials_frame_effect 1 sampleAppState).2.1 "grass" (by decide),
   (animateMaterials_frame_effect 1 sampleAppState).2.2.2.2.2.2.2.2 0 0
     (by decide) (by decide)⟩

/-! ## Wave disturbance scheduling (`UpdateWaves` lines 598-615)

`UpdateWaves` keeps a function-local `static float t_base = 0.0f` and runs:
`if ((mTimer.TotalTime() - t_base) >= 0.25f) { t_base += 0.25f;
int i = MathHelper::Rand(4, mWaves->RowCount() - 5);
int j = MathHelper::Rand(4, mWaves->ColumnCount() - 5);
float r = MathHelper::RandF(0.2f, 0.5f); mWaves->Disturb(i, j, r); }`.
The wave physics step and the vertex-buffer copy that follow do not touch the
scheduling state and are elided here; the disturbance magnitude is not part
of any claim and is elided as well. -/

/-- Modelled from the spec: `MathHelper::Rand(a, b)` lives in
`Common/MathHelper.h`, which is not part of this repository snapshot; the
spec describes it as picking a random grid coordinate within the given
range.  We model the random source as an arbitrary seed and return
`a + seed mod (b - a + 1)`, a value in the closed range `[a, b]` whenever
`a ≤ b`. -/
def mathHelperRand (a b : Int) (seed : Nat) : Int :=
  a + (seed : Int) % (b - a + 1)

/-- Modelled from the spec: the wave grid's `RowCount()`.  The app constructs
`Waves(128, 128, 1.0f, 0.03f, 4.0f, 0.2f)` in `Initialize`; the `Waves`
class (not in this snapshot) reports the constructor's row dimension. -/
def wavesRowCount : Int := 128

/-- Modelled from the spec: the wave grid's `ColumnCount()` (see
`wavesRowCount`). -/
def wavesColumnCount : Int := 128

/-- One recorded `mWaves->Disturb(i, j, r)` call: grid cell and the
`mTimer.TotalTime()` of the `UpdateWaves` call that fired it. -/
structure Disturbance where
  row : Int
  col : Int
  firedAt : ℚ
deriving DecidableEq, Repr

/-- Scheduling state of `UpdateWaves`: the static `t_base` accumulator plus
the (ghost) log of disturbances fired so far. -/
structure WavesSchedState where
  tBase : ℚ
  fired : List Disturbance
deriving DecidableEq, Repr

/-- At startup `t_base = 0.0f` and nothing has fired. -/
def initWavesSched : WavesSchedState := ⟨0, []⟩

/-- The scheduling part of one `UpdateWaves` call at timer value `totalTime`. -/
def updateWavesSched (totalTime : ℚ) (seedI seedJ : Nat) (s : WavesSchedState) :
    WavesSchedState :=
  if totalTime - s.tBase ≥ 1/4 then
    { tBase := s.tBase + 1/4
      fired := s.fired ++
        [{ row := mathHelperRand 4 (wavesRowCount - 5) seedI
           col := mathHelperRand 4 (wavesColumnCount - 5) seedJ
           firedAt := totalTime }] }
  else s

/-- A sequence of `UpdateWaves` calls, each with its timer value and the
random seeds consumed for the cell. -/
def runWavesSched (calls : List (ℚ × Nat × Nat)) : WavesSchedState :=
  calls.foldl (fun s c => updateWavesSched c.1 c.2.1 c.2.2 s) initWavesSched

theorem mathHelperRand_mem (a b : Int) (seed : Nat) (h : a ≤ b) :
    a ≤ mathHelperRand a b seed ∧ mathHelperRand a b seed ≤ b := by
  have h0 : 0 ≤ (seed : Int) % (b - a + 1) := Int.emod_nonneg _ (by omega)
  have h1 : (seed : Int) % (b - a + 1) < b - a + 1 :=
    Int.emod_lt_of_pos _ (by omega)
  unfold mathHelperRand
  omega

/-- The inductive invariant of the disturbance scheduler: `t_base` is a
quarter of the number of disturbances fired, and the `k`-th (0-based)
disturbance fired no earlier than `(k+1)/4` seconds of accumulated timer
time, at an in-bounds grid cell. -/
def WavesSchedInv (s : WavesSchedState) : Prop :=
  s.tBase = (s.fired.length : ℚ) / 4
  ∧ ∀ (k : Nat) (d : Disturbance), s.fired[k]? = some d →
      d.firedAt ≥ ((k : ℚ) + 1) / 4
      ∧ 4 ≤ d.row ∧ d.row ≤ wavesRowCount - 5
      ∧ 4 ≤ d.col ∧ d.col ≤ wavesColumnCount - 5

theorem wavesSchedInv_init : WavesSchedInv initWavesSched := by
  unfold WavesSchedInv
  constructor
  · simp [initWavesSched]
  · intro k d hk
    simp [initWavesSched] at hk

theorem wavesSchedInv_step (totalTime : ℚ) (seedI seedJ : Nat) (s : WavesSchedState)
    (h : WavesSchedInv s) :
    WavesSchedInv (updateWavesSched totalTime seedI seedJ s) := by
  unfold WavesSchedInv at h ⊢
  obtain ⟨hb, hf⟩ := h
  unfold updateWavesSched
  split
  case isFalse hg => exact ⟨hb, hf⟩
  case isTrue hg =>
    constructor
    · simp only [List.length_append, List.length_cons, List.length_nil]
      rw [hb]
      push_cast
      ring
    · intro k d hk
      simp only at hk
      rcases Nat.lt_or_ge k s.fired.length with hlt | hge
      · rw [List.getElem?_append, if_pos hlt] at hk
        exact hf k d hk
      · have hlen : k < s.fired.length + 1 := by
          have := hk
          by_contra hbig
          push_neg at hbig
          rw [List.getElem?_eq_none (by simp; omega)] at this
          exact Option.noConfusion this
        have hkeq : k = s.fired.length := by omega
        subst hkeq
        rw [List.getElem?_concat_length] at hk
        cases hk
        refine ⟨?_, ?_⟩
        · rw [hb] at hg
          push_cast
          linarith
        · have hrow := mathHelperRand_mem 4 (wavesRowCount - 5) seedI
            (by unfold wavesRowCount; omega)
          have hcol := mathHelperRand_mem 4 (wavesColumnCount - 5) seedJ
            (by unfold wavesColumnCount; omega)
          exact ⟨hrow.1, hrow.2, hcol.1, hcol.2⟩

theorem wavesSchedInv_fold (calls : List (ℚ × Nat × Nat)) (s : WavesSchedState)
    (h : WavesSchedInv s) :
    WavesSchedInv (calls.foldl (fun s c => updateWavesSched c.1 c.2.1 c.2.2 s) s) := by
  induction calls generalizing s with
  | nil => exact h
  | cons c cs ih => exact ih _ (wavesSchedInv_step c.1 c.2.1 c.2.2 s h)

/-- C6: across every sequence of `UpdateWaves` calls, the `k`-th (0-based)
disturbance fires only once at least `0.25·(k+1)` seconds of accumulated
timer time have passed — i.e. its firing time exceeds the `0.25·k` seconds
consumed by the previous disturbances by at least `0.25` (the `t_base`
ledger) — and its grid cell satisfies `4 ≤ row ≤ RowCount()-5` and
`4 ≤ col ≤ ColumnCount()-5`. -/
theorem updateWaves_disturb_schedule (calls : List (ℚ × Nat × Nat)) (k : Nat)
    (d : Disturbance) (hk : (runWavesSched calls).fired[k]? = some d) :
    d.firedAt ≥ ((k : ℚ) + 1) / 4
    ∧ 4 ≤ d.row ∧ d.row ≤ wavesRowCount - 5
    ∧ 4 ≤ d.col ∧ d.col ≤ wavesColumnCount - 5 := by
  have hinv : WavesSchedInv (runWavesSched calls) :=
    wavesSchedInv_fold calls initWavesSched wavesSchedInv_init
  unfold WavesSchedInv at hinv
  exact hinv.2 k d hk

/-- Witness for C6: a single call at timer value 1 with seeds 0 fires one
disturbance at cell (4,4) with firing time 1. -/
theorem updateWaves_disturb_schedule_witness :
    ((⟨4, 4, 1⟩ : Disturbance).firedAt ≥ ((0 : ℚ) + 1) / 4)
    ∧ 4 ≤ (⟨4, 4, 1⟩ : Disturbance).row
    ∧ (⟨4, 4, 1⟩ : Disturbance).row ≤ wavesRowCount - 5
    ∧ 4 ≤ (⟨4, 4, 1⟩ : Disturbance).col
    ∧ (⟨4, 4, 1⟩ : Disturbance).col ≤ wavesColumnCount - 5 :=
  updateWaves_disturb_schedule [(1, 0, 0)] 0 ⟨4, 4, 1⟩
    (by norm_num [runWavesSched, updateWavesSched, initWavesSched,
      mathHelperRand, wavesRowCount, wavesColumnCount])

/-! ## Mouse-look (`OnMouseMove` lines 357-377)

`OnMouseMove` with the left button held computes
`dx = XMConvertToRadians(0.25f * (x - mLastMousePos.x))` and likewise `dy`,
then runs `if (bNoClip) mCamera.Pitch(dy); mCamera.RotateY(dx);` and always
records `mLastMousePos = (x, y)`.

`Camera::Pitch` / `Camera::RotateY` live in `Common/Camera.h`, which is not
part of this repository snapshot; modelled from the spec: they accumulate
the given delta into the camera's pitch / yaw orientation with no clamping.
Angles are tracked here in degrees (`0.25 · Δpixels`); the
`XMConvertToRadians` factor `π/180` is a fixed positive linear rescale that
preserves every (in)equality stated below. -/

/-- Accumulated camera orientation (degrees). -/
structure CameraAngles where
  pitch : ℚ
  yaw : ℚ
deriving DecidableEq, Repr

/-- The application state `OnMouseMove` reads and writes: the noclip flag
(toggled by keys '1'/'2' in `OnKeyboardInput`), the camera orientation, and
`mLastMousePos`. -/
structure MouseAppState where
  bNoClip : Bool
  cam : CameraAngles
  lastMousePosX : Int
  lastMousePosY : Int
deriving DecidableEq, Repr

/-- `OnMouseMove(btnState, x, y)` with `lButtonDown = (btnState & MK_LBUTTON) != 0`. -/
def onMouseMove (lButtonDown : Bool) (x y : Int) (s : MouseAppState) : MouseAppState :=
  if lButtonDown then
    let dx : ℚ := (1/4) * ((x : ℚ) - (s.lastMousePosX : ℚ))
    let dy : ℚ := (1/4) * ((y : ℚ) - (s.lastMousePosY : ℚ))
    let cam1 := if s.bNoClip then { s.cam with pitch := s.cam.pitch + dy } else s.cam
    let cam2 := { cam1 with yaw := cam1.yaw + dx }
    { s with cam := cam2, lastMousePosX := x, lastMousePosY := y }
  else
    { s with lastMousePosX := x, lastMousePosY := y }

/-- C8 (counterexample): with the left button held but `bNoClip = false` (the
startup value), a mouse move with a nonzero pixel delta `Δy = 10` leaves the
pitch unchanged even though `dy = 0.25·Δy ≠ 0` — the pitch update is *not*
unconditional in every state of the application. -/
theorem onMouseMove_pitch_not_unconditional :
    (onMouseMove true 0 10
        { bNoClip := false, cam := ⟨0, 0⟩, lastMousePosX := 0, lastMousePosY := 0 }).cam.pitch
      = (0 : ℚ)
    ∧ (1/4 : ℚ) * ((10 : ℚ) - (0 : ℚ)) ≠ 0 := by
  constructor
  · rfl
  · norm_num

/-- C8 (amended): with the left button held, the pitch delta
`dy = 0.25·Δy` is applied — unclamped — exactly when noclip mode (`bNoClip`)
is active; with `bNoClip` false the camera pitch is unchanged.  The yaw is
always rotated by `dx`, and the last mouse position is always recorded. -/
theorem onMouseMove_pitch_only_in_noclip (lb : Bool) (x y : Int) (s : MouseAppState) :
    ((onMouseMove true x y s).cam.pitch =
        if s.bNoClip then s.cam.pitch + (1/4) * ((y : ℚ) - (s.lastMousePosY : ℚ))
        else s.cam.pitch)
    ∧ (onMouseMove true x y s).cam.yaw
        = s.cam.yaw + (1/4) * ((x : ℚ) - (s.lastMousePosX : ℚ))
    ∧ (onMouseMove false x y s).cam = s.cam
    ∧ (onMouseMove lb x y s).lastMousePosX = x
    ∧ (onMouseMove lb x y s).lastMousePosY = y := by
  refine ⟨?_, ?_, rfl, ?_, ?_⟩
  · by_cases h : s.bNoClip <;> simp [onMouseMove, h]
  · by_cases h : s.bNoClip <;> simp [onMouseMove, h]
  · cases lb <;> rfl
  · cases lb <;> rfl

/-! ## Wave index buffer (`BuildWavesGeometry` lines 1180-1234)

`BuildWavesGeometry` allocates `std::vector<std::uint16_t>
indices(3 * mWaves->TriangleCount())`, asserts
`mWaves->VertexCount() < 0x0000ffff`, and fills the vector with a nested
loop over quads: for `i < m-1`, `j < n-1` it writes the six corner indices
of quad `(i,j)` at positions `k..k+5` and advances `k` by 6.

The buffer is modelled as a list of `Option Nat` (initially all `none`);
each store is bounds-checked (an out-of-range write would be C++ undefined
behaviour and is modelled as failure) and truncates its value to 16 bits as
the `uint16_t` element type does. -/

/-- Modelled from the spec: `Waves::TriangleCount()` for an `m`×`n` grid is
`2*(m-1)*(n-1)` (two triangles per quad); the `Waves` class is not part of
this snapshot, but the claim and the loop structure fix this count. -/
def wavesTriangleCount (m n : Nat) : Nat := 2 * ((m - 1) * (n - 1))

/-- Modelled from the spec: `Waves::VertexCount()` is `m*n`. -/
def wavesVertexCount (m n : Nat) : Nat := m * n

/-- One bounds-checked `indices[k] = v` store into the `uint16_t` vector. -/
def writeIdx (a : List (Option Nat)) (k v : Nat) : Option (List (Option Nat)) :=
  if k < a.length then some (a.set k (some (v % 65536))) else none

/-- The six stores of one quad iteration (loop body, lines 1193-1201):
`indices[k] = i*n+j; indices[k+1] = i*n+j+1; indices[k+2] = (i+1)*n+j;
indices[k+3] = (i+1)*n+j; indices[k+4] = i*n+j+1;
indices[k+5] = (i+1)*n+j+1; k += 6;`. -/
def writeQuad (n : Nat) (st : List (Option Nat) × Nat) (q : Nat × Nat) :
    Option (List (Option Nat) × Nat) := do
  let k := st.2
  let a1 ← writeIdx st.1 k (q.1 * n + q.2)
  let a2 ← writeIdx a1 (k + 1) (q.1 * n + q.2 + 1)
  let a3 ← writeIdx a2 (k + 2) ((q.1 + 1) * n + q.2)
  let a4 ← writeIdx a3 (k + 3) ((q.1 + 1) * n + q.2)
  let a5 ← writeIdx a4 (k + 4) (q.1 * n + q.2 + 1)
  let a6 ← writeIdx a5 (k + 5) ((q.1 + 1) * n + q.2 + 1)
  pure (a6, k + 6)

/-- The quads `(i,j)` in the order the nested loop visits them. -/
def quadList (m n : Nat) : List (Nat × Nat) :=
  (List.range (m - 1)).flatMap (fun i => (List.range (n - 1)).map (fun j => (i, j)))

/-- `BuildWavesGeometry`'s index generation: allocate, then run every quad's
six stores in loop order. -/
def buildWavesIndices (m n : Nat) : Option (List (Option Nat)) := do
  let a0 := List.replicate (3 * wavesTriangleCount m n) (none : Option Nat)
  let r ← (quadList m n).foldlM (writeQuad n) (a0, 0)
  pure r.1

theorem quadValBound (m n i j : Nat) (hi : i + 1 < m) (hj : j + 1 < n) :
    (i + 1) * n + j + 1 < m * n := by
  have h1 : (i + 1) * n ≤ (m - 1) * n := Nat.mul_le_mul_right n (by omega)
  have h2 : (m - 1) * n + n = m * n := by
    have h3 : ((m - 1) + 1) * n = (m - 1) * n + n := Nat.succ_mul _ _
    rw [← h3]
    congr 1
    omega
  omega

theorem writeQuad_spec (m n : Nat) (a : List (Option Nat)) (k i j : Nat)
    (hroom : k + 6 ≤ a.length) (hi : i + 1 < m) (hj : j + 1 < n)
    (hmn : m * n < 65535) :
    ∃ b : List (Option Nat),
      writeQuad n (a, k) (i, j) = some (b, k + 6)
      ∧ b.length = a.length
      ∧ (∀ p, p < k → b[p]? = a[p]?)
      ∧ (∀ p, k + 6 ≤ p → b[p]? = a[p]?)
      ∧ (∀ p, k ≤ p → p < k + 6 → ∃ v, b[p]? = some (some v) ∧ v < m * n) := by
  have hvb := quadValBound m n i j hi hj
  have haux : i * n ≤ (i + 1) * n := Nat.mul_le_mul_right n (by omega)
  have hv1 : i * n + j < m * n := by omega
  have hv2 : i * n + j + 1 < m * n := by omega
  have hv3 : (i + 1) * n + j < m * n := by omega
  have hv6 : (i + 1) * n + j + 1 < m * n := by omega
  have hmod : ∀ v : Nat, v < m * n → v % 65536 = v := fun v hv =>
    Nat.mod_eq_of_lt (by omega)
  have hk0 : k < a.length := by omega
  have e1 : writeIdx a k (i * n + j)
      = some (a.set k (some ((i * n + j) % 65536))) := by
    unfold writeIdx
    rw [if_pos hk0]
  have hk1 : k + 1 < (a.set k (some ((i * n + j) % 65536))).length := by
    rw [List.length_set]; omega
  have e2 : writeIdx (a.set k (some ((i * n + j) % 65536))) (k + 1) (i * n + j + 1)
      = some ((a.set k (some ((i * n + j) % 65536))).set (k + 1)
          (some ((i * n + j + 1) % 65536))) := by
    unfold writeIdx
    rw [if_pos hk1]
  set l2 := (a.set k (some ((i * n + j) % 65536))).set (k + 1)
      (some ((i * n + j + 1) % 65536)) with hl2def
  have hlen2 : l2.length = a.length := by rw [hl2def]; simp
  have hk2 : k + 2 < l2.length := by omega
  have e3 : writeIdx l2 (k + 2) ((i + 1) * n + j)
      = some (l2.set (k + 2) (some (((i + 1) * n + j) % 65536))) := by
    unfold writeIdx
    rw [if_pos hk2]
  set l3 := l2.set (k + 2) (some (((i + 1) * n + j) % 65536)) with hl3def
  have hlen3 : l3.length = a.length := by rw [hl3def]; simp [hlen2]
  have hk3 : k + 3 < l3.length := by omega
  have e4 : writeIdx l3 (k + 3) ((i + 1) * n + j)
      = some (l3.set (k + 3) (some (((i + 1) * n + j) % 65536))) := by
    unfold writeIdx
    rw [if_pos hk3]
  set l4 := l3.set (k + 3) (some (((i + 1) * n + j) % 65536)) with hl4def
  have hlen4 : l4.length = a.length := by rw [hl4def]; simp [hlen3]
  have hk4 : k + 4 < l4.length := by omega
  have e5 : writeIdx l4 (k + 4) (i * n + j + 1)
      = some (l4.set (k + 4) (some ((i * n + j + 1) % 65536))) := by
    unfold writeIdx
    rw [if_pos hk4]
  set l5 := l4.set (k + 4) (some ((i * n + j + 1) % 65536)) with hl5def
  have hlen5 : l5.length = a.length := by rw [hl5def]; simp [hlen4]
  have hk5 : k + 5 < l5.length := by omega
  have e6 : writeIdx l5 (k + 5) ((i + 1) * n + j + 1)
      = some (l5.set (k + 5) (some (((i + 1) * n + j + 1) % 65536))) := by
    unfold writeIdx
    rw [if_pos hk5]
  set l6 := l5.set (k + 5) (some (((i + 1) * n + j + 1) % 65536)) with hl6def
  have hlen6 : l6.length = a.length := by rw [hl6def]; simp [hlen5]
  refine ⟨l6, ?_, hlen6, ?_, ?_, ?_⟩
  · simp [writeQuad, e1, e2, ← hl2def, e3, ← hl3def, e4, ← hl4def, e5, ← hl5def,
      e6, ← hl6def]
  · intro p hp
    rw [hl6def, hl5def, hl4def, hl3def, hl2def]
    rw [List.getElem?_set_ne (by omega), List.getElem?_set_ne (by omega),
      List.getElem?_set_ne (by omega), List.getElem?_set_ne (by omega),
      List.getElem?_set_ne (by omega), List.getElem?_set_ne (by omega)]
  · intro p hp
    rw [hl6def, hl5def, hl4def, hl3def, hl2def]
    rw [List.getElem?_set_ne (by omega), List.getElem?_set_ne (by omega),
      List.getElem?_set_ne (by omega), List.getElem?_set_ne (by omega),
      List.getElem?_set_ne (by omega), List.getElem?_set_ne (by omega)]
  · intro p hp1 hp2
    have hcase : p = k ∨ p = k + 1 ∨ p = k + 2 ∨ p = k + 3 ∨ p = k + 4 ∨ p = k + 5 := by
      omega
    rcases hcase with rfl | rfl | rfl | rfl | rfl | rfl
    · refine ⟨i * n + j, ?_, hv1⟩
      rw [hl6def, hl5def, hl4def, hl3def, hl2def]
      rw [List.getElem?_set_ne (by omega), List.getElem?_set_ne (by omega),
        List.getElem?_set_ne (by omega), List.getElem?_set_ne (by omega),
        List.getElem?_set_ne (by omega),
        List.getElem?_set_eq_of_lt _ hk0, hmod _ hv1]
    · refine ⟨i * n + j + 1, ?_, hv2⟩
      rw [hl6def, hl5def, hl4def, hl3def, hl2def]
      rw [List.getElem?_set_ne (by omega), List.getElem?_set_ne (by omega),
        List.getElem?_set_ne (by omega), List.getElem?_set_ne (by omega),
        List.getElem?_set_eq_of_lt _ hk1, hmod _ hv2]
    · refine ⟨(i + 1) * n + j, ?_, hv3⟩
      rw [hl6def, hl5def, hl4def, hl3def]
      rw [List.getElem?_set_ne (by omega), List.getElem?_set_ne (by omega),
        List.getElem?_set_ne (by omega),
        List.getElem?_set_eq_of_lt _ hk2, hmod _ hv3]
    · refine ⟨(i + 1) * n + j, ?_, hv3⟩
      rw [hl6def, hl5def, hl4def]
      rw [List.getElem?_set_ne (by omega), List.getElem?_set_ne (by omega),
        List.getElem?_set_eq_of_lt _ hk3, hmod _ hv3]
    · refine ⟨i * n + j + 1, ?_, hv2⟩
      rw [hl6def, hl5def]
      rw [List.getElem?_set_ne (by omega),
        List.getElem?_set_eq_of_lt _ hk4, hmod _ hv2]
    · refine ⟨(i + 1) * n + j + 1, ?_, hv6⟩
      rw [hl6def]
      rw [List.getElem?_set_eq_of_lt _ hk5, hmod _ hv6]

theorem foldlM_writeQuad_spec (m n : Nat) (hmn : m * n < 65535) :
    ∀ (qs : List (Nat × Nat)) (a : List (Option Nat)) (k : Nat),
      (∀ q ∈ qs, q.1 + 1 < m ∧ q.2 + 1 < n) →
      k + 6 * qs.length ≤ a.length →
      ∃ b : List (Option Nat),
        qs.foldlM (writeQuad n) (a, k) = some (b, k + 6 * qs.length)
        ∧ b.length = a.length
        ∧ (∀ p, p < k → b[p]? = a[p]?)
        ∧ (∀ p, k + 6 * qs.length ≤ p → b[p]? = a[p]?)
        ∧ (∀ p, k ≤ p → p < k + 6 * qs.length →
            ∃ v, b[p]? = some (some v) ∧ v < m * n) := by
  intro qs
  induction qs with
  | nil =>
      intro a k _ _
      refine ⟨a, by simp, rfl, fun p _ => rfl, fun p _ => rfl, ?_⟩
      intro p hp1 hp2
      simp only [List.length_nil] at hp2
      omega
  | cons q qs ih =>
      intro a k hq hroom
      obtain ⟨hqi, hqj⟩ := hq q (by simp)
      simp only [List.length_cons] at hroom ⊢
      have hroom1 : k + 6 ≤ a.length := by omega
      obtain ⟨b1, hb1eq, hb1len, hb1lo, hb1hi, hb1w⟩ :=
        writeQuad_spec m n a k q.1 q.2 hroom1 hqi hqj hmn
      have hq2 : ∀ r ∈ qs, r.1 + 1 < m ∧ r.2 + 1 < n := fun r hr => hq r (by simp [hr])
      have hroom2 : (k + 6) + 6 * qs.length ≤ b1.length := by omega
      obtain ⟨b2, hb2eq, hb2len, hb2lo, hb2hi, hb2w⟩ := ih b1 (k + 6) hq2 hroom2
      have hcast : writeQuad n (a, k) q = some (b1, k + 6) := by
        have : q = (q.1, q.2) := rfl
        rw [this]
        exact hb1eq
      refine ⟨b2, ?_, by omega, ?_, ?_, ?_⟩
      · rw [List.foldlM_cons, hcast]
        simp only [Option.bind_eq_bind, Option.some_bind]
        rw [hb2eq]
        congr 2
        omega
      · intro p hp
        rw [hb2lo p (by omega), hb1lo p hp]
      · intro p hp
        rw [hb2hi p (by omega), hb1hi p (by omega)]
      · intro p hp1 hp2
        rcases Nat.lt_or_ge p (k + 6) with hlt | hge
        · obtain ⟨v, hv, hvb⟩ := hb1w p hp1 hlt
          exact ⟨v, by rw [hb2lo p (by omega)]; exact hv, hvb⟩
        · exact hb2w p hge (by omega)

theorem quadList_mem (m n : Nat) (q : Nat × Nat) (hq : q ∈ quadList m n) :
    q.1 + 1 < m ∧ q.2 + 1 < n := by
  unfold quadList at hq
  simp only [List.mem_flatMap, List.mem_map, List.mem_range] at hq
  obtain ⟨i, hi, j, hj, rfl⟩ := hq
  exact ⟨by omega, by omega⟩

theorem sum_map_const_nat (l : List ℕ) (c : ℕ) :
    (l.map (fun _ => c)).sum = l.length * c := by
  induction l with
  | nil => simp
  | cons x xs ih =>
      simp only [List.map_cons, List.sum_cons, List.length_cons, ih]
      ring

theorem quadList_length (m n : Nat) :
    (quadList m n).length = (m - 1) * (n - 1) := by
  unfold quadList
  rw [List.length_flatMap]
  have hmap : List.map (List.length ∘ fun i => (List.range (n - 1)).map (fun j => (i, j)))
      (List.range (m - 1))
      = List.map (fun _ => n - 1) (List.range (m - 1)) := by
    apply List.map_congr_left
    intro i _
    simp
  rw [hmap, sum_map_const_nat, List.length_range]

/-- C10: for every `m`-row × `n`-column wave grid with `m, n ≥ 2`, under the
asserted precondition `VertexCount() = m*n < 0xffff`, the index-generation
loop of `BuildWavesGeometry` performs no out-of-bounds store and writes a
value into every one of the `3·TriangleCount = 6·(m-1)·(n-1)` allocated
index slots, and every stored value is strictly less than the vertex count
`m*n` (hence fits losslessly in the 16-bit element type). -/
theorem buildWavesIndices_covers_all_slots (m n : Nat) (_hm : 2 ≤ m) (_hn : 2 ≤ n)
    (hvc : wavesVertexCount m n < 65535) :
    ∃ b : List (Option Nat),
      buildWavesIndices m n = some b
      ∧ b.length = 3 * wavesTriangleCount m n
      ∧ 3 * wavesTriangleCount m n = 6 * ((m - 1) * (n - 1))
      ∧ ∀ p, p < b.length →
          ∃ v, b[p]? = some (some v) ∧ v < wavesVertexCount m n := by
  have hmn : m * n < 65535 := hvc
  have hlen0 : (List.replicate (3 * wavesTriangleCount m n) (none : Option Nat)).length
      = 3 * wavesTriangleCount m n := List.length_replicate _ _
  have hroom : 0 + 6 * (quadList m n).length
      ≤ (List.replicate (3 * wavesTriangleCount m n) (none : Option Nat)).length := by
    rw [hlen0, quadList_length]
    unfold wavesTriangleCount
    omega
  obtain ⟨b, hbeq, hblen, _, _, hbw⟩ :=
    foldlM_writeQuad_spec m n hmn (quadList m n)
      (List.replicate (3 * wavesTriangleCount m n) (none : Option Nat)) 0
      (fun q hq => quadList_mem m n q hq) hroom
  refine ⟨b, ?_, by rw [hblen, hlen0], by unfold wavesTriangleCount; omega, ?_⟩
  · simp [buildWavesIndices, hbeq]
  · intro p hp
    have hp2 : p < 0 + 6 * (quadList m n).length := by
      rw [quadList_length]
      rw [hblen, hlen0] at hp
      unfold wavesTriangleCount at hp
      omega
    exact hbw p (by omega) hp2

/-- Witness for C10: the 2×2 grid (one quad, six index slots, vertex count
4 < 0xffff). -/
theorem buildWavesIndices_covers_all_slots_witness :
    ∃ b : List (Option Nat),
      buildWavesIndices 2 2 = some b
      ∧ b.length = 3 * wavesTriangleCount 2 2
      ∧ 3 * wavesTriangleCount 2 2 = 6 * ((2 - 1) * (2 - 1))
      ∧ ∀ p, p < b.length →
          ∃ v, b[p]? = some (some v) ∧ v < wavesVertexCount 2 2 :=
  buildWavesIndices_covers_all_slots 2 2 (by decide) (by decide) (by decide)

/-! ## Scene construction (`BuildRenderItems` lines 1591-1953,
`BuildMazePart` lines 1393-1408, `BuildFrameResources` lines 1510-1517)

`BuildRenderItems` assigns every stored item's `ObjCBIndex` from a single
running counter `funcCBIndex` (either `ObjCBIndex = funcCBIndex++` inline, or
`BuildMazePart(..., funcCBIndex++)` whose body sets
`tempRitem->ObjCBIndex = index` — the post-increment of the local parameter
inside `BuildMazePart` has no effect on the caller) and pushes the item into
its layer list and into `mAllRitems`.  `boxRitem` is created, but both its
`ObjCBIndex = funcCBIndex++;` line and its `mAllRitems.push_back` are
commented out in the source: it consumes no index and is never stored.  The
geometric transform literals of the ~100 castle/maze parts are pure data
carried by no claim and are elided; the creation sequence, the
material/geometry bindings, the layer targets, and the loop iteration counts
(3 castle walls, 3 gate walls, 5×4 merlons, 4 corners, 4 tips, 4 diamonds,
1 pyramid diamond, 61 `BuildMazePart` calls) are reproduced exactly.  The
first three items push into `mAllRitems` slightly after their layer-list
pushes in the source, but in the same relative order, so the resulting lists
are as built below. -/

/-- The running counter and the accumulators of `BuildRenderItems`. -/
structure BuildItemsState where
  funcCBIndex : Nat
  mAllRitems : List RenderItem
  mRitemLayer : RenderLayer → List RenderItem

/-- One `ObjCBIndex = funcCBIndex++; mRitemLayer[layer].push_back(ritem);
mAllRitems.push_back(ritem);` sequence. -/
def pushRitem (mat geo : String) (layer : RenderLayer) (st : BuildItemsState) :
    BuildItemsState :=
  let r : RenderItem :=
    { numFramesDirty := (gNumFrameResources : Int)
      objCBIndex := st.funcCBIndex
      matName := mat
      geoName := geo }
  { funcCBIndex := st.funcCBIndex + 1
    mAllRitems := st.mAllRitems ++ [r]
    mRitemLayer := fun l =>
      if l = layer then st.mRitemLayer l ++ [r] else st.mRitemLayer l }

/-- A `for (int i = 0; i < count; i++)` loop around a push sequence. -/
def pushN (count : Nat) (f : BuildItemsState → BuildItemsState)
    (st : BuildItemsState) : BuildItemsState :=
  (List.range count).foldl (fun st2 _ => f st2) st

/-- `BuildRenderItems` (with all 61 `BuildMazePart` calls inlined). -/
def buildRenderItems : BuildItemsState :=
  let st0 : BuildItemsState :=
    { funcCBIndex := 0, mAllRitems := [], mRitemLayer := fun _ => [] }
  let st1 := pushRitem "water" "waterGeo" RenderLayer.Transparent st0
  let st2 := pushRitem "grass" "landGeo" RenderLayer.Opaque st1
  let st3 := pushRitem "treeSprites" "treeSpritesGeo"
      RenderLayer.AlphaTestedTreeSprites st2
  let st4 := pushRitem "brick" "wallGeo" RenderLayer.AlphaTested st3
  let st5 := pushRitem "wood" "wallGeo" RenderLayer.AlphaTested st4
  let st6 := pushRitem "crystal" "pyramidGeo" RenderLayer.AlphaTested st5
  let st7 := pushN 3 (pushRitem "brick" "wallGeo" RenderLayer.AlphaTested) st6
  let st8 := pushN 3 (pushRitem "brick" "wallGeo" RenderLayer.AlphaTested) st7
  let st9 := pushN 5 (fun st =>
      pushRitem "brick" "wallGeo" RenderLayer.AlphaTested
        (pushRitem "brick" "wallGeo" RenderLayer.AlphaTested
          (pushRitem "brick" "wallGeo" RenderLayer.AlphaTested
            (pushRitem "brick" "wallGeo" RenderLayer.AlphaTested st)))) st8
  let st10 := pushN 4 (pushRitem "marble" "cornerGeo" RenderLayer.AlphaTested) st9
  let st11 := pushN 4 (pushRitem "marble" "coneGeo" RenderLayer.AlphaTested) st10
  let st12 := pushN 4 (pushRitem "crystal" "diamondGeo" RenderLayer.AlphaTested) st11
  let st13 := pushRitem "crystal" "diamondGeo" RenderLayer.AlphaTested st12
  pushN 61 (pushRitem "grass" "wallGeo" RenderLayer.AlphaTested) st13

/-- The final `mAllRitems` list. -/
def buildAllRitems : List RenderItem := buildRenderItems.mAllRitems

/-- The sizing arguments of one `FrameResource(md3dDevice.Get(), 1,
(UINT)mAllRitems.size(), (UINT)mMaterials.size(), mWaves->VertexCount())`. -/
structure FrameResourceSpec where
  passCount : Nat
  objectCount : Nat
  materialCount : Nat
  waveVertCount : Nat
deriving DecidableEq, Repr

/-- The 7 store keys written by `BuildMaterials`. -/
def materialNames : List String :=
  ["grass", "water", "brick", "marble", "wood", "crystal", "treeSprites"]

/-- `BuildFrameResources`: `gNumFrameResources` frame resources, each sized
to the full scene (the wave grid is 128×128, see `Initialize`). -/
def buildFrameResources : List FrameResourceSpec :=
  (List.range gNumFrameResources).map fun _ =>
    { passCount := 1
      objectCount := buildAllRitems.length
      materialCount := materialNames.length
      waveVertCount := 128 * 128 }

set_option maxRecDepth 10000 in
/-- C7: after `BuildRenderItems` (including all `BuildMazePart` calls) and
`BuildFrameResources`, the stored render items' object-constant-buffer
indices are pairwise distinct, and each is strictly below the
object-constant-buffer capacity (the stored-item count) used to size each of
the 3 frame resources. -/
theorem buildRenderItems_objCBIndex_unique_lt_capacity :
    (buildAllRitems.map RenderItem.objCBIndex).Nodup
    ∧ buildFrameResources.length = gNumFrameResources
    ∧ ∀ fr ∈ buildFrameResources, ∀ r ∈ buildAllRitems,
        r.objCBIndex < fr.objectCount := by
  have hidx : buildAllRitems.map RenderItem.objCBIndex = List.range 106 := by decide
  have hlen : buildAllRitems.length = 106 := by
    have := congrArg List.length hidx
    simpa using this
  refine ⟨?_, by decide, ?_⟩
  · rw [hidx]
    exact List.nodup_range 106
  · intro fr hfr r hr
    have hfro : fr.objectCount = buildAllRitems.length := by
      simp only [buildFrameResources, List.mem_map] at hfr
      obtain ⟨_, _, rfl⟩ := hfr
      rfl
    have hmem : r.objCBIndex ∈ List.range 106 := by
      rw [← hidx]
      exact List.mem_map_of_mem _ hr
    rw [hfro, hlen]
    exact List.mem_range.1 hmem

set_option maxRecDepth 10000 in
/-- Witness for C7: the first frame resource and the first stored item (the
waves item, index 0). -/
theorem buildRenderItems_objCBIndex_unique_lt_capacity_witness :
    ({ numFramesDirty := (gNumFrameResources : Int), objCBIndex := 0,
       matName := "water", geoName := "waterGeo" } : RenderItem).objCBIndex
      < ({ passCount := 1, objectCount := buildAllRitems.length,
           materialCount := materialNames.length,
           waveVertCount := 128 * 128 } : FrameResourceSpec).objectCount :=
  buildRenderItems_objCBIndex_unique_lt_capacity.2.2
    { passCount := 1, objectCount := buildAllRitems.length,
      materialCount := materialNames.length, waveVertCount := 128 * 128 }
    (by decide)
    { numFramesDirty := (gNumFrameResources : Int), objCBIndex := 0,
      matName := "water", geoName := "waterGeo" }
    (by decide)
